import Mathlib

/-!
# Verification of the DeFi/NFT project scanner

Shallow embedding of the scan / filter / dedup pipeline of
`src/defi_nft_bot-1.py` (class `ProjectScanner`, plus the `stats` counter).

Modelling conventions:
* JSON payload fields that the code reads with `dict.get(key, default)` are
  modelled as `Option` fields (`none` = absent upstream).
* The two community counts are read with `.get(key, 0) or 0`, which also
  coerces an explicit JSON `null` (and a zero) to `0`; they are modelled as
  `Option (Option Int)` (`none` = key absent, `some none` = key present but
  null, `some (some v)` = value).
* Network effects are modelled by explicit response values: the listing call
  result is a `ListingResult`, and per-candidate detail calls are an oracle
  `net : Nat → String → DetailResult` indexed by the loop iteration, so the
  detail endpoint may answer differently at different times.
* The global mutable set `sent_projects` is threaded explicitly as a
  duplicate-free `List String` (elements are only added under a
  not-already-present guard, mirroring Python set semantics).
* Observable effects of a scan (detail fetches, skips, the
  `asyncio.sleep(1.5)` pacing delays) are recorded in an event trace.
-/

namespace DefiScanner

/-- One entry of the listing response (`/coins/list`).  The scanner reads only
`coin.get('id')` (line 94); the unread `symbol`/`name`/`platforms` record
fields are not modelled. -/
structure CoinSummary where
  id : String
deriving DecidableEq

/-- The `community_data` sub-object of a detail response.  Both counts are read
with `.get(key, 0) or 0` (lines 109-110): `none` = absent, `some none` =
present but null. -/
structure CommunityData where
  twitter_followers : Option (Option Int)
  telegram_channel_user_count : Option (Option Int)
deriving DecidableEq

/-- The `links` sub-object of a detail response (lines 107, 121-124). -/
structure Links where
  homepage : Option (List String)
  twitter_screen_name : Option String
  telegram_channel_identifier : Option String
  chat_url : Option (List String)
deriving DecidableEq

/-- The `description` sub-object: the code reads only its `en` entry
(line 118). -/
structure Description where
  en : Option String
deriving DecidableEq

/-- The `market_cap` sub-object of `market_data`; the code reads only `usd`
(line 127). -/
structure MarketCap where
  usd : Option Int
deriving DecidableEq

/-- The `market_data` sub-object of a detail response (line 127). -/
structure MarketData where
  market_cap : Option MarketCap
deriving DecidableEq

/-- A successfully parsed detail response body (`/coins/{id}`), restricted to
the keys the program reads (lines 106-127). -/
structure CoinDetails where
  name : Option String
  symbol : Option String
  description : Option Description
  community_data : Option CommunityData
  links : Option Links
  categories : Option (List String)
  contract_address : Option String
  market_data : Option MarketData
deriving DecidableEq

/-- The `project_info` dict built for a match (lines 114-128). -/
structure ProjectInfo where
  id : String
  name : String
  symbol : String
  description : String
  twitter_followers : Int
  telegram_users : Int
  homepage : String
  twitter : String
  telegram : String
  discord : String
  categories : List String
  contract_address : String
  market_cap : Int
deriving DecidableEq

/-- Outcome of the HTTP call made by `get_new_coins` (lines 47-59): a response
with a status and a parsed body, or a raised transport exception. -/
inductive ListingResult where
  | response (status : Nat) (coins : List CoinSummary)
  | failure
deriving DecidableEq

/-- Outcome of the HTTP call made by `get_coin_details` (lines 72-82). -/
inductive DetailResult where
  | response (status : Nat) (body : CoinDetails)
  | failure
deriving DecidableEq

/-- Observable events of one scan, in order of occurrence. -/
inductive Event where
  | skipSeen (id : String)
  | detailFetch (id : String)
  | skipAbsent (id : String)
  | emit (id : String)
  | noMatch (id : String)
  | sleep
deriving DecidableEq

/-- Event classifier: a detail-endpoint fetch. -/
def Event.isDetailFetch : Event → Bool
  | Event.detailFetch _ => true
  | _ => false

/-- Event classifier: candidate skipped because its detail fetch was absent. -/
def Event.isSkipAbsent : Event → Bool
  | Event.skipAbsent _ => true
  | _ => false

/-- Event classifier: a pacing delay. -/
def Event.isSleep : Event → Bool
  | Event.sleep => true
  | _ => false

/-- `get_new_coins` (lines 43-59): on a 200 response return the body, sliced
with `coins[-100:] if len(coins) > 100 else coins` (line 53); on any other
status, and on a transport exception, return `[]` (lines 56, 59). -/
def get_new_coins : ListingResult → List CoinSummary
  | ListingResult.response status coins =>
    if status = 200 then
      if coins.length > 100 then coins.drop (coins.length - 100) else coins
    else []
  | ListingResult.failure => []

/-- `get_coin_details` (lines 61-82): the parsed body on a 200 response,
`None` on any other status (line 79) and on a transport exception (line 82). -/
def get_coin_details : DetailResult → Option CoinDetails
  | DetailResult.response status body => if status = 200 then some body else none
  | DetailResult.failure => none

/-- Python `x.get(key, 0) or 0` on an int-valued key: absent and null (and
zero itself) all yield `0` (lines 109-110). -/
def pyOrZero : Option (Option Int) → Int
  | none => 0
  | some none => 0
  | some (some v) => v

/-- `community_data = details.get('community_data', {})` (line 106): an absent
sub-object behaves as one whose every key is absent. -/
def communityDataOf (details : CoinDetails) : CommunityData :=
  details.community_data.getD { twitter_followers := none, telegram_channel_user_count := none }

/-- `links = details.get('links', {})` (line 107). -/
def linksOf (details : CoinDetails) : Links :=
  details.links.getD
    { homepage := none, twitter_screen_name := none,
      telegram_channel_identifier := none, chat_url := none }

/-- `twitter_followers = community_data.get('twitter_followers', 0) or 0`
(line 109). -/
def twitterFollowersOf (details : CoinDetails) : Int :=
  pyOrZero (communityDataOf details).twitter_followers

/-- `telegram_users = community_data.get('telegram_channel_user_count', 0) or 0`
(line 110). -/
def telegramUsersOf (details : CoinDetails) : Int :=
  pyOrZero (communityDataOf details).telegram_channel_user_count

/-- Python string slice `s[:n]`: the first `n` characters. -/
def pySlice (s : String) (n : Nat) : String :=
  String.mk (s.data.take n)

/-- Python `str(..)` of a list of strings, as used on `links.get('chat_url')`
(line 124): elements rendered with quotes, joined by a comma and space,
in square brackets. -/
def pyStrOfList (l : List String) : String :=
  "[" ++ String.intercalate ", " (l.map (fun s => "\x27" ++ s ++ "\x27")) ++ "]"

/-- Test whether the first list is a prefix of the second, on characters. -/
def startsWithChars : List Char → List Char → Bool
  | [], _ => true
  | _ :: _, [] => false
  | p :: ps, c :: cs => (p = c) && startsWithChars ps cs

/-- Test whether the first list occurs as a contiguous sublist of the
second. -/
def containsChars (pat : List Char) : List Char → Bool
  | [] => startsWithChars pat []
  | c :: cs => startsWithChars pat (c :: cs) || containsChars pat cs

/-- Python substring test `pat in s` for strings. -/
def pyInStr (pat s : String) : Bool :=
  containsChars pat.data s.data

/-- Python `s.upper()`, character by character. -/
def pyUpper (s : String) : String :=
  String.mk (s.data.map Char.toUpper)

/-- Python `s.lower()`, character by character. -/
def pyLower (s : String) : String :=
  String.mk (s.data.map Char.toLower)

/-- `links.get('homepage', [''])[0] if links.get('homepage') else ''`
(line 121): the guard is Python truthiness, so an absent key and an empty
list both give the empty string. -/
def homepageOf (links : Links) : String :=
  match links.homepage with
  | some (h :: _) => h
  | _ => ""

/-- the `discord` entry (line 124):
`links.get('chat_url', [''])[0] if 'discord' in str(links.get('chat_url', '')).lower() else ''`.
An absent `chat_url` stringifies the default `''`, which never contains
`discord`. -/
def discordOf (links : Links) : String :=
  let reprStr : String :=
    match links.chat_url with
    | some l => pyStrOfList l
    | none => ""
  if pyInStr "discord" (pyLower reprStr) then (links.chat_url.getD [""]).headD "" else ""

/-- The `project_info` dict built on a match (lines 114-128), field by field:
`name` defaults to `'Unknown'`, `symbol` to `''` then upper-cased,
`description` to `'No description available'` then sliced to 500 characters,
the link fields to `''`, `categories` to `[]`, `contract_address` to `''`,
and the market cap chain `market_data.market_cap.usd` to `0`. -/
def buildProjectInfo (coin_id : String) (details : CoinDetails) : ProjectInfo :=
  { id := coin_id,
    name := details.name.getD "Unknown",
    symbol := pyUpper (details.symbol.getD ""),
    description :=
      pySlice ((details.description.getD { en := none }).en.getD "No description available") 500,
    twitter_followers := twitterFollowersOf details,
    telegram_users := telegramUsersOf details,
    homepage := homepageOf (linksOf details),
    twitter := (linksOf details).twitter_screen_name.getD "",
    telegram := (linksOf details).telegram_channel_identifier.getD "",
    discord := discordOf (linksOf details),
    categories := details.categories.getD [],
    contract_address := details.contract_address.getD "",
    market_cap :=
      ((details.market_data.getD { market_cap := none }).market_cap.getD
        { usd := none }).usd.getD 0 }

/-- The amount, in seconds, of the fixed pacing delay `asyncio.sleep(1.5)`
(line 136); every `Event.sleep` in a trace stands for a delay of exactly this
amount. -/
def pacingDelay : Rat := 3 / 2

/-- State threaded through the `for coin in coins[:20]` loop of
`scan_for_projects` (lines 93-136): the accumulated `matching_projects`
list, the global `sent_projects` set, the event trace, and the loop
iteration index (used to address the detail oracle). -/
structure ScanState where
  matching_projects : List ProjectInfo
  sent_projects : List String
  trace : List Event
  idx : Nat
deriving DecidableEq

/-- One iteration of the scan loop (lines 93-136): skip if already sent
(lines 97-98, `continue` — no fetch, no sleep); fetch detail and skip if
absent (lines 101-103, `continue` — no sleep); otherwise test
`twitter_followers < 200 and telegram_users < 50` (line 113), on a match
append the project and mark the id sent (lines 130-131), and in either of
these last two cases sleep 1.5 seconds at the end of the body (line 136). -/
def processCoin (net : Nat → String → DetailResult) (st : ScanState) (coin : CoinSummary) :
    ScanState :=
  if coin.id ∈ st.sent_projects then
    { st with trace := st.trace ++ [Event.skipSeen coin.id], idx := st.idx + 1 }
  else
    match get_coin_details (net st.idx coin.id) with
    | none =>
      { st with trace := st.trace ++ [Event.detailFetch coin.id, Event.skipAbsent coin.id],
                idx := st.idx + 1 }
    | some details =>
      if twitterFollowersOf details < 200 ∧ telegramUsersOf details < 50 then
        { st with
            matching_projects := st.matching_projects ++ [buildProjectInfo coin.id details],
            sent_projects := st.sent_projects ++ [coin.id],
            trace := st.trace ++
              [Event.detailFetch coin.id, Event.emit coin.id, Event.sleep],
            idx := st.idx + 1 }
      else
        { st with
            trace := st.trace ++
              [Event.detailFetch coin.id, Event.noMatch coin.id, Event.sleep],
            idx := st.idx + 1 }

/-- The scan loop over the candidate list (line 93). -/
def scanLoop (net : Nat → String → DetailResult) : List CoinSummary → ScanState → ScanState
  | [], st => st
  | coin :: rest, st => scanLoop net rest (processCoin net st coin)

/-- `scan_for_projects` (lines 84-138): list the recent coins, consider the
first 20 (`coins[:20]`, line 93), and run the loop starting from an empty
match list and the current `sent_projects` set. -/
def scan_for_projects (sent_projects : List String) (listing : ListingResult)
    (net : Nat → String → DetailResult) : ScanState :=
  scanLoop net ((get_new_coins listing).take 20)
    { matching_projects := [], sent_projects := sent_projects, trace := [], idx := 0 }

/-- A sequence of scan invocations over the process lifetime: each scan sees
its own listing response and detail oracle, and the `sent_projects` set
carries over.  Returns the concatenation of all match sequences and the
final set. -/
def runScans : List (ListingResult × (Nat → String → DetailResult)) → List String →
    List ProjectInfo × List String
  | [], sent => ([], sent)
  | (listing, net) :: rest, sent =>
    let st := scan_for_projects sent listing net
    let r := runScans rest st.sent_projects
    (st.matching_projects ++ r.1, r.2)

/-- The count reported by `stats_command` (line 238): `len(sent_projects)`. -/
def stats_projects_sent (sent_projects : List String) : Nat :=
  sent_projects.length

/-- The message built by `stats_command` (lines 236-241). -/
def stats_message (sent_projects : List String) : String :=
  "📊 *Bot Statistics*\n\n" ++
  "Projects sent: " ++ toString (stats_projects_sent sent_projects) ++ "\n" ++
  "Status: Active ✅\n" ++
  "Scan interval: Every hour\n"

/-! ## Basic unfolding lemmas -/

lemma scanLoop_nil (net : Nat → String → DetailResult) (st : ScanState) :
    scanLoop net [] st = st := rfl

lemma scanLoop_cons (net : Nat → String → DetailResult) (coin : CoinSummary)
    (rest : List CoinSummary) (st : ScanState) :
    scanLoop net (coin :: rest) st = scanLoop net rest (processCoin net st coin) := rfl

lemma processCoin_seen (net : Nat → String → DetailResult) (st : ScanState)
    (coin : CoinSummary) (hmem : coin.id ∈ st.sent_projects) :
    processCoin net st coin =
      { st with trace := st.trace ++ [Event.skipSeen coin.id], idx := st.idx + 1 } := by
  simp [processCoin, hmem]

lemma processCoin_absent (net : Nat → String → DetailResult) (st : ScanState)
    (coin : CoinSummary) (hmem : coin.id ∉ st.sent_projects)
    (hf : get_coin_details (net st.idx coin.id) = none) :
    processCoin net st coin =
      { st with trace := st.trace ++ [Event.detailFetch coin.id, Event.skipAbsent coin.id],
                idx := st.idx + 1 } := by
  simp [processCoin, hmem, hf]

lemma processCoin_match (net : Nat → String → DetailResult) (st : ScanState)
    (coin : CoinSummary) (details : CoinDetails) (hmem : coin.id ∉ st.sent_projects)
    (hf : get_coin_details (net st.idx coin.id) = some details)
    (hp : twitterFollowersOf details < 200 ∧ telegramUsersOf details < 50) :
    processCoin net st coin =
      { st with
          matching_projects := st.matching_projects ++ [buildProjectInfo coin.id details],
          sent_projects := st.sent_projects ++ [coin.id],
          trace := st.trace ++
            [Event.detailFetch coin.id, Event.emit coin.id, Event.sleep],
          idx := st.idx + 1 } := by
  simp [processCoin, hmem, hf, hp]

lemma processCoin_nomatch (net : Nat → String → DetailResult) (st : ScanState)
    (coin : CoinSummary) (details : CoinDetails) (hmem : coin.id ∉ st.sent_projects)
    (hf : get_coin_details (net st.idx coin.id) = some details)
    (hp : ¬ (twitterFollowersOf details < 200 ∧ telegramUsersOf details < 50)) :
    processCoin net st coin =
      { st with
          trace := st.trace ++
            [Event.detailFetch coin.id, Event.noMatch coin.id, Event.sleep],
          idx := st.idx + 1 } := by
  simp [processCoin, hmem, hf, hp]

/-! ## The loop invariant

`scanLoop` only appends to the match list and to the sent set, in lockstep:
the newly appended matches carry pairwise distinct identifiers, none of which
was in the sent set before, and every appended match is a `buildProjectInfo`
record. -/

lemma scanLoop_delta (net : Nat → String → DetailResult) (coins : List CoinSummary) :
    ∀ st : ScanState, ∃ new : List ProjectInfo,
      (scanLoop net coins st).matching_projects = st.matching_projects ++ new ∧
      (scanLoop net coins st).sent_projects =
        st.sent_projects ++ new.map (fun p => p.id) ∧
      (∀ x ∈ new.map (fun p => p.id), x ∉ st.sent_projects) ∧
      (new.map (fun p => p.id)).Nodup ∧
      (∀ p ∈ new, ∃ d, p = buildProjectInfo p.id d) := by
  induction coins with
  | nil => intro st; exact ⟨[], by simp [scanLoop_nil]⟩
  | cons coin rest ih =>
    intro st
    rw [scanLoop_cons]
    by_cases hmem : coin.id ∈ st.sent_projects
    · rw [processCoin_seen net st coin hmem]
      obtain ⟨new, h1, h2, h3, h4, h5⟩ :=
        ih { st with trace := st.trace ++ [Event.skipSeen coin.id], idx := st.idx + 1 }
      exact ⟨new, by simpa using h1, by simpa using h2, by simpa using h3, h4, h5⟩
    · cases hf : get_coin_details (net st.idx coin.id) with
      | none =>
        rw [processCoin_absent net st coin hmem hf]
        obtain ⟨new, h1, h2, h3, h4, h5⟩ :=
          ih { st with
                 trace := st.trace ++ [Event.detailFetch coin.id, Event.skipAbsent coin.id],
                 idx := st.idx + 1 }
        exact ⟨new, by simpa using h1, by simpa using h2, by simpa using h3, h4, h5⟩
      | some details =>
        by_cases hp : twitterFollowersOf details < 200 ∧ telegramUsersOf details < 50
        · rw [processCoin_match net st coin details hmem hf hp]
          obtain ⟨new, h1, h2, h3, h4, h5⟩ :=
            ih { st with
                   matching_projects :=
                     st.matching_projects ++ [buildProjectInfo coin.id details],
                   sent_projects := st.sent_projects ++ [coin.id],
                   trace := st.trace ++
                     [Event.detailFetch coin.id, Event.emit coin.id,
                      Event.sleep],
                   idx := st.idx + 1 }
          simp only at h1 h2 h3
          refine ⟨buildProjectInfo coin.id details :: new, ?_, ?_, ?_, ?_, ?_⟩
          · rw [h1, List.append_assoc, List.singleton_append]
          · rw [h2, List.append_assoc, List.singleton_append]
            simp [buildProjectInfo]
          · intro x hx
            simp only [List.map_cons, List.mem_cons] at hx
            rcases hx with hx | hx
            · have : x = coin.id := by simpa [buildProjectInfo] using hx
              rw [this]; exact hmem
            · have := h3 x hx
              intro hxs
              exact this (List.mem_append_left _ hxs)
          · simp only [List.map_cons]
            refine List.nodup_cons.mpr ⟨?_, h4⟩
            intro hc
            have hc2 : (buildProjectInfo coin.id details).id ∈ new.map (fun p => p.id) := hc
            have := h3 _ hc2
            exact this (by simp [buildProjectInfo])
          · intro p hp2
            rcases List.mem_cons.mp hp2 with hp2 | hp2
            · exact ⟨details, by subst hp2; rfl⟩
            · exact h5 p hp2
        · rw [processCoin_nomatch net st coin details hmem hf hp]
          obtain ⟨new, h1, h2, h3, h4, h5⟩ :=
            ih { st with
                   trace := st.trace ++
                     [Event.detailFetch coin.id, Event.noMatch coin.id,
                      Event.sleep],
                   idx := st.idx + 1 }
          exact ⟨new, by simpa using h1, by simpa using h2, by simpa using h3, h4, h5⟩

/-! ## Trace invariants -/

lemma scanLoop_no_refetch (net : Nat → String → DetailResult) (coins : List CoinSummary) :
    ∀ (st : ScanState) (x : String), x ∈ st.sent_projects →
      Event.detailFetch x ∉ st.trace →
      Event.detailFetch x ∉ (scanLoop net coins st).trace := by
  induction coins with
  | nil => intro st x _ htr; simpa [scanLoop_nil] using htr
  | cons coin rest ih =>
    intro st x hx htr
    rw [scanLoop_cons]
    by_cases hmem : coin.id ∈ st.sent_projects
    · rw [processCoin_seen net st coin hmem]
      exact ih _ x (by simpa using hx) (by simp [htr])
    · have hne : x ≠ coin.id := fun h => hmem (h ▸ hx)
      cases hf : get_coin_details (net st.idx coin.id) with
      | none =>
        rw [processCoin_absent net st coin hmem hf]
        exact ih _ x (by simpa using hx) (by simp [htr, hne])
      | some details =>
        by_cases hp : twitterFollowersOf details < 200 ∧ telegramUsersOf details < 50
        · rw [processCoin_match net st coin details hmem hf hp]
          refine ih _ x ?_ ?_
          · simp only
            exact List.mem_append_left _ hx
          · simp [htr, hne]
        · rw [processCoin_nomatch net st coin details hmem hf hp]
          exact ih _ x (by simpa using hx) (by simp [htr, hne])

lemma scanLoop_pacing (net : Nat → String → DetailResult) (coins : List CoinSummary) :
    ∀ st : ScanState,
      List.countP Event.isDetailFetch st.trace =
        List.countP Event.isSkipAbsent st.trace + List.countP Event.isSleep st.trace →
      List.countP Event.isDetailFetch (scanLoop net coins st).trace =
        List.countP Event.isSkipAbsent (scanLoop net coins st).trace +
          List.countP Event.isSleep (scanLoop net coins st).trace := by
  induction coins with
  | nil => intro st h; simpa [scanLoop_nil] using h
  | cons coin rest ih =>
    intro st h
    rw [scanLoop_cons]
    by_cases hmem : coin.id ∈ st.sent_projects
    · rw [processCoin_seen net st coin hmem]
      refine ih _ ?_
      simp only [List.countP_append]
      simp [List.countP_cons, Event.isDetailFetch, Event.isSkipAbsent, Event.isSleep, h]
    · cases hf : get_coin_details (net st.idx coin.id) with
      | none =>
        rw [processCoin_absent net st coin hmem hf]
        refine ih _ ?_
        simp [List.countP_append, List.countP_cons, Event.isDetailFetch,
          Event.isSkipAbsent, Event.isSleep]
        omega
      | some details =>
        by_cases hp : twitterFollowersOf details < 200 ∧ telegramUsersOf details < 50
        · rw [processCoin_match net st coin details hmem hf hp]
          refine ih _ ?_
          simp [List.countP_append, List.countP_cons, Event.isDetailFetch,
            Event.isSkipAbsent, Event.isSleep]
          omega
        · rw [processCoin_nomatch net st coin details hmem hf hp]
          refine ih _ ?_
          simp [List.countP_append, List.countP_cons, Event.isDetailFetch,
            Event.isSkipAbsent, Event.isSleep]
          omega

lemma scanLoop_fetch_bound (net : Nat → String → DetailResult) (coins : List CoinSummary) :
    ∀ st : ScanState,
      List.countP Event.isDetailFetch (scanLoop net coins st).trace ≤
        List.countP Event.isDetailFetch st.trace + coins.length := by
  induction coins with
  | nil => intro st; simp [scanLoop_nil]
  | cons coin rest ih =>
    intro st
    rw [scanLoop_cons]
    by_cases hmem : coin.id ∈ st.sent_projects
    · rw [processCoin_seen net st coin hmem]
      have h := ih { st with trace := st.trace ++ [Event.skipSeen coin.id], idx := st.idx + 1 }
      simp [List.countP_append, List.countP_cons, Event.isDetailFetch,
        List.length_cons] at h ⊢
      omega
    · cases hf : get_coin_details (net st.idx coin.id) with
      | none =>
        rw [processCoin_absent net st coin hmem hf]
        have h := ih { st with
          trace := st.trace ++ [Event.detailFetch coin.id, Event.skipAbsent coin.id],
          idx := st.idx + 1 }
        simp [List.countP_append, List.countP_cons, Event.isDetailFetch,
          List.length_cons] at h ⊢
        omega
      | some details =>
        by_cases hp : twitterFollowersOf details < 200 ∧ telegramUsersOf details < 50
        · rw [processCoin_match net st coin details hmem hf hp]
          have h := ih { st with
            matching_projects := st.matching_projects ++ [buildProjectInfo coin.id details],
            sent_projects := st.sent_projects ++ [coin.id],
            trace := st.trace ++
              [Event.detailFetch coin.id, Event.emit coin.id, Event.sleep],
            idx := st.idx + 1 }
          simp [List.countP_append, List.countP_cons, Event.isDetailFetch,
            List.length_cons] at h ⊢
          omega
        · rw [processCoin_nomatch net st coin details hmem hf hp]
          have h := ih { st with
            trace := st.trace ++
              [Event.detailFetch coin.id, Event.noMatch coin.id, Event.sleep],
            idx := st.idx + 1 }
          simp [List.countP_append, List.countP_cons, Event.isDetailFetch,
            List.length_cons] at h ⊢
          omega

/-! ## Whole-scan and multi-scan consequences -/

lemma scan_for_projects_def (sent : List String) (listing : ListingResult)
    (net : Nat → String → DetailResult) :
    scan_for_projects sent listing net =
      scanLoop net ((get_new_coins listing).take 20)
        { matching_projects := [], sent_projects := sent, trace := [], idx := 0 } := rfl

lemma scan_delta (sent : List String) (listing : ListingResult)
    (net : Nat → String → DetailResult) :
    (scan_for_projects sent listing net).sent_projects =
      sent ++ ((scan_for_projects sent listing net).matching_projects.map (fun p => p.id)) ∧
    (∀ x ∈ (scan_for_projects sent listing net).matching_projects.map (fun p => p.id),
      x ∉ sent) ∧
    ((scan_for_projects sent listing net).matching_projects.map (fun p => p.id)).Nodup ∧
    (∀ p ∈ (scan_for_projects sent listing net).matching_projects,
      ∃ d, p = buildProjectInfo p.id d) := by
  obtain ⟨new, h1, h2, h3, h4, h5⟩ :=
    scanLoop_delta net ((get_new_coins listing).take 20)
      { matching_projects := [], sent_projects := sent, trace := [], idx := 0 }
  rw [scan_for_projects_def]
  simp only at h1 h2 h3
  simp only [List.nil_append] at h1
  rw [h1, h2]
  exact ⟨rfl, h3, h4, h5⟩

lemma runScans_nil (sent : List String) : runScans [] sent = ([], sent) := rfl

lemma runScans_cons (listing : ListingResult) (net : Nat → String → DetailResult)
    (rest : List (ListingResult × (Nat → String → DetailResult))) (sent : List String) :
    runScans ((listing, net) :: rest) sent =
      ((scan_for_projects sent listing net).matching_projects ++
        (runScans rest (scan_for_projects sent listing net).sent_projects).1,
       (runScans rest (scan_for_projects sent listing net).sent_projects).2) := rfl

lemma runScans_delta (scans : List (ListingResult × (Nat → String → DetailResult))) :
    ∀ sent : List String,
      (runScans scans sent).2 = sent ++ (runScans scans sent).1.map (fun p => p.id) ∧
      (sent.Nodup → (runScans scans sent).2.Nodup) := by
  induction scans with
  | nil => intro sent; simp [runScans_nil]
  | cons sc rest ih =>
    intro sent
    obtain ⟨listing, net⟩ := sc
    rw [runScans_cons]
    obtain ⟨hsent, hfresh, hnd, _⟩ := scan_delta sent listing net
    obtain ⟨ih1, ih2⟩ := ih (scan_for_projects sent listing net).sent_projects
    constructor
    · rw [ih1, hsent]
      simp [List.append_assoc]
    · intro hnodup
      refine ih2 ?_
      rw [hsent]
      refine List.Nodup.append hnodup hnd ?_
      intro a ha hb
      exact hfresh a hb ha

lemma pySlice_length_le (s : String) (n : Nat) : (pySlice s n).length ≤ n := by
  show (s.data.take n).length ≤ n
  simp

lemma build_description_le (coin_id : String) (details : CoinDetails) :
    (buildProjectInfo coin_id details).description.length ≤ 500 :=
  pySlice_length_le _ 500

/-! ## Test fixtures -/

/-- A detail body whose community counts are the given values and whose other
keys are all absent. -/
def sampleDetails (tf tg : Int) : CoinDetails :=
  { name := none, symbol := none, description := none,
    community_data := some
      { twitter_followers := some (some tf), telegram_channel_user_count := some (some tg) },
    links := none, categories := none, contract_address := none, market_data := none }

/-- A detail body with every key absent. -/
def emptyDetails : CoinDetails :=
  { name := none, symbol := none, description := none, community_data := none,
    links := none, categories := none, contract_address := none, market_data := none }

/-- A detail body whose community counts are present but null. -/
def nullCountsDetails : CoinDetails :=
  { name := none, symbol := none, description := none,
    community_data := some
      { twitter_followers := some none, telegram_channel_user_count := some none },
    links := none, categories := none, contract_address := none, market_data := none }

/-- A detail body whose sub-objects are all present but whose inner keys are
all absent. -/
def partialDetails : CoinDetails :=
  { name := none, symbol := none,
    description := some { en := none },
    community_data := some
      { twitter_followers := none, telegram_channel_user_count := none },
    links := some
      { homepage := none, twitter_screen_name := none,
        telegram_channel_identifier := none, chat_url := none },
    categories := none, contract_address := none,
    market_data := some { market_cap := none } }

/-- A detail body whose `market_cap` sub-object is present but whose `usd`
key is absent. -/
def noUsdDetails : CoinDetails :=
  { name := none, symbol := none, description := none, community_data := none,
    links := none, categories := none, contract_address := none,
    market_data := some { market_cap := some { usd := none } } }

/-! ## Claims -/

/-- Claim C1: for every candidate processed by the scan loop of
`scan_for_projects` (whose per-candidate body is `processCoin`) whose detail
fetch succeeds, the candidate is emitted as a match if and only if both
`twitter_followers < 200` and `telegram_users < 50` hold (strict less-than on
both, conjunction); when the predicate fails, the match list is unchanged. -/
theorem match_predicate_iff (net : Nat → String → DetailResult) (st : ScanState)
    (coin : CoinSummary) (details : CoinDetails)
    (hmem : coin.id ∉ st.sent_projects)
    (hf : get_coin_details (net st.idx coin.id) = some details) :
    ((processCoin net st coin).matching_projects =
        st.matching_projects ++ [buildProjectInfo coin.id details] ↔
      (twitterFollowersOf details < 200 ∧ telegramUsersOf details < 50)) ∧
    (¬ (twitterFollowersOf details < 200 ∧ telegramUsersOf details < 50) →
      (processCoin net st coin).matching_projects = st.matching_projects) := by
  constructor
  · constructor
    · intro h
      by_contra hp
      rw [processCoin_nomatch net st coin details hmem hf hp] at h
      simp at h
    · intro hp
      rw [processCoin_match net st coin details hmem hf hp]
  · intro hp
    rw [processCoin_nomatch net st coin details hmem hf hp]

/-- Witness for C1 at the three boundary examples of the claim:
`(199, 49)` matches, `(199, 50)` does not, `(200, 0)` does not. -/
theorem match_predicate_iff_witness :
    (processCoin (fun _ _ => DetailResult.response 200 (sampleDetails 199 49))
        { matching_projects := [], sent_projects := [], trace := [], idx := 0 }
        { id := "x" }).matching_projects =
      [] ++ [buildProjectInfo "x" (sampleDetails 199 49)] ∧
    (processCoin (fun _ _ => DetailResult.response 200 (sampleDetails 199 50))
        { matching_projects := [], sent_projects := [], trace := [], idx := 0 }
        { id := "x" }).matching_projects = [] ∧
    (processCoin (fun _ _ => DetailResult.response 200 (sampleDetails 200 0))
        { matching_projects := [], sent_projects := [], trace := [], idx := 0 }
        { id := "x" }).matching_projects = [] :=
  ⟨(match_predicate_iff (fun _ _ => DetailResult.response 200 (sampleDetails 199 49))
      { matching_projects := [], sent_projects := [], trace := [], idx := 0 }
      { id := "x" } (sampleDetails 199 49) (by decide) (by decide)).1.mpr (by decide),
   (match_predicate_iff (fun _ _ => DetailResult.response 200 (sampleDetails 199 50))
      { matching_projects := [], sent_projects := [], trace := [], idx := 0 }
      { id := "x" } (sampleDetails 199 50) (by decide) (by decide)).2 (by decide),
   (match_predicate_iff (fun _ _ => DetailResult.response 200 (sampleDetails 200 0))
      { matching_projects := [], sent_projects := [], trace := [], idx := 0 }
      { id := "x" } (sampleDetails 200 0) (by decide) (by decide)).2 (by decide)⟩

/-- Claim C2: a candidate identifier already in the dedup store when the scan
starts is never fetched from the detail endpoint during that scan and does
not appear in the returned match sequence. -/
theorem scan_dedup_no_refetch (sent : List String) (listing : ListingResult)
    (net : Nat → String → DetailResult) (x : String) (hx : x ∈ sent) :
    Event.detailFetch x ∉ (scan_for_projects sent listing net).trace ∧
    x ∉ (scan_for_projects sent listing net).matching_projects.map (fun p => p.id) := by
  constructor
  · rw [scan_for_projects_def]
    exact scanLoop_no_refetch net _ _ x hx (by simp)
  · intro hmem
    obtain ⟨_, hfresh, _, _⟩ := scan_delta sent listing net
    exact hfresh x hmem hx

/-- Witness for C2: a scan whose only candidate is already in the store. -/
theorem scan_dedup_no_refetch_witness :
    Event.detailFetch "a" ∉
      (scan_for_projects ["a"] (ListingResult.response 200 [{ id := "a" }])
        (fun _ _ => DetailResult.response 200 (sampleDetails 0 0))).trace ∧
    "a" ∉
      (scan_for_projects ["a"] (ListingResult.response 200 [{ id := "a" }])
        (fun _ _ => DetailResult.response 200 (sampleDetails 0 0))).matching_projects.map
        (fun p => p.id) :=
  scan_dedup_no_refetch ["a"] (ListingResult.response 200 [{ id := "a" }])
    (fun _ _ => DetailResult.response 200 (sampleDetails 0 0)) "a" (by decide)

/-- Counterexample to C3 as stated: a scan whose single considered candidate
is skipped as already seen (`continue` at line 98) performs no pacing delay
at all, although the claim requires a delay for every considered candidate
including those skipped as already seen. -/
theorem scan_pacing_counterexample :
    ((get_new_coins (ListingResult.response 200 [{ id := "a" }])).take 20).length = 1 ∧
    List.countP Event.isSleep
      (scan_for_projects ["a"] (ListingResult.response 200 [{ id := "a" }])
        (fun _ _ => DetailResult.failure)).trace = 0 := by
  decide

/-- Claim C3 as amended: the 1.5-second pacing delay occurs exactly once per
candidate whose detail fetch was performed and returned a detail (whether the
candidate matched or not); candidates skipped as already seen make no fetch
and no delay, and candidates whose detail fetch returned absent proceed to
the next candidate without a delay (the `continue` statements at lines 98 and
103 bypass the `asyncio.sleep(1.5)` at line 136).  Every delay that does
occur is 1.5 seconds. -/
theorem scan_pacing_amended (sent : List String) (listing : ListingResult)
    (net : Nat → String → DetailResult) :
    pacingDelay = 3 / 2 ∧
    List.countP Event.isDetailFetch (scan_for_projects sent listing net).trace =
      List.countP Event.isSkipAbsent (scan_for_projects sent listing net).trace +
        List.countP Event.isSleep (scan_for_projects sent listing net).trace := by
  constructor
  · rfl
  · rw [scan_for_projects_def]
    exact scanLoop_pacing net _ _ (by simp)

/-- Counterexample to C4 as stated: with every upstream key absent, the
constructed record's `name` is the non-empty placeholder `"Unknown"` and its
`description` is the non-empty placeholder `"No description available"`,
not the empty string the claim requires for text fields. -/
theorem build_defaults_counterexample :
    (buildProjectInfo "newtoken" emptyDetails).name = "Unknown" ∧
    (buildProjectInfo "newtoken" emptyDetails).name ≠ "" ∧
    (buildProjectInfo "newtoken" emptyDetails).description = "No description available" := by
  refine ⟨rfl, ?_, by decide⟩
  decide

/-- Claim C4 as amended: every field absent in the upstream payload gets a
fixed default — zero for the two integer counts and the market cap,
`"Unknown"` for name, `"No description available"` for description, the
empty string for symbol and the link/contract fields, the empty sequence for
categories — and a community count that is present but null is coerced to
zero rather than propagated.  Absence covers every mode the payload allows:
the enclosing sub-object (`description`/`community_data`/`links`/
`market_data`) may itself be absent, or be present with the inner key absent
(for the market cap, at either nesting level), and a count may also be
present but null. -/
theorem build_defaults_amended (coin_id : String) (details : CoinDetails) :
    (details.name = none → (buildProjectInfo coin_id details).name = "Unknown") ∧
    (details.symbol = none → (buildProjectInfo coin_id details).symbol = "") ∧
    ((details.description = none ∨
      (∃ de, details.description = some de ∧ de.en = none)) →
      (buildProjectInfo coin_id details).description = "No description available") ∧
    ((details.community_data = none ∨
      (∃ cd, details.community_data = some cd ∧
        (cd.twitter_followers = none ∨ cd.twitter_followers = some none))) →
      (buildProjectInfo coin_id details).twitter_followers = 0) ∧
    ((details.community_data = none ∨
      (∃ cd, details.community_data = some cd ∧
        (cd.telegram_channel_user_count = none ∨
          cd.telegram_channel_user_count = some none))) →
      (buildProjectInfo coin_id details).telegram_users = 0) ∧
    ((details.links = none ∨ (∃ li, details.links = some li ∧ li.homepage = none)) →
      (buildProjectInfo coin_id details).homepage = "") ∧
    ((details.links = none ∨
      (∃ li, details.links = some li ∧ li.twitter_screen_name = none)) →
      (buildProjectInfo coin_id details).twitter = "") ∧
    ((details.links = none ∨
      (∃ li, details.links = some li ∧ li.telegram_channel_identifier = none)) →
      (buildProjectInfo coin_id details).telegram = "") ∧
    ((details.links = none ∨ (∃ li, details.links = some li ∧ li.chat_url = none)) →
      (buildProjectInfo coin_id details).discord = "") ∧
    (details.categories = none → (buildProjectInfo coin_id details).categories = []) ∧
    (details.contract_address = none →
      (buildProjectInfo coin_id details).contract_address = "") ∧
    ((details.market_data = none ∨
      (∃ md, details.market_data = some md ∧
        (md.market_cap = none ∨ (∃ mc, md.market_cap = some mc ∧ mc.usd = none)))) →
      (buildProjectInfo coin_id details).market_cap = 0) := by
  refine ⟨?_, ?_, ?_, ?_, ?_, ?_, ?_, ?_, ?_, ?_, ?_, ?_⟩
  · intro h; simp [buildProjectInfo, h]
  · intro h
    simp only [buildProjectInfo, h, Option.getD_none]
    decide
  · intro h
    rcases h with h | ⟨de, hde, hen⟩
    · simp only [buildProjectInfo, h, Option.getD_none]
      decide
    · simp only [buildProjectInfo, hde, Option.getD_some, hen, Option.getD_none]
      decide
  · intro h
    rcases h with h | ⟨cd, hcd, hk⟩
    · simp [buildProjectInfo, twitterFollowersOf, communityDataOf, h, pyOrZero]
    · rcases hk with hk | hk <;>
        simp [buildProjectInfo, twitterFollowersOf, communityDataOf, hcd, hk, pyOrZero]
  · intro h
    rcases h with h | ⟨cd, hcd, hk⟩
    · simp [buildProjectInfo, telegramUsersOf, communityDataOf, h, pyOrZero]
    · rcases hk with hk | hk <;>
        simp [buildProjectInfo, telegramUsersOf, communityDataOf, hcd, hk, pyOrZero]
  · intro h
    rcases h with h | ⟨li, hli, hk⟩
    · simp only [buildProjectInfo, linksOf, h, Option.getD_none]
      decide
    · simp [buildProjectInfo, linksOf, hli, homepageOf, hk]
  · intro h
    rcases h with h | ⟨li, hli, hk⟩
    · simp only [buildProjectInfo, linksOf, h, Option.getD_none]
    · simp [buildProjectInfo, linksOf, hli, hk]
  · intro h
    rcases h with h | ⟨li, hli, hk⟩
    · simp only [buildProjectInfo, linksOf, h, Option.getD_none]
    · simp [buildProjectInfo, linksOf, hli, hk]
  · intro h
    rcases h with h | ⟨li, hli, hk⟩
    · simp only [buildProjectInfo, linksOf, h, Option.getD_none]
      decide
    · simp [buildProjectInfo, linksOf, hli, discordOf, hk]
  · intro h; simp [buildProjectInfo, h]
  · intro h; simp [buildProjectInfo, h]
  · intro h
    rcases h with h | ⟨md, hmd, hk⟩
    · simp [buildProjectInfo, h]
    · rcases hk with hk | ⟨mc, hmc, husd⟩
      · simp [buildProjectInfo, hmd, hk]
      · simp [buildProjectInfo, hmd, hmc, husd]

/-- Witness for C4 (amended) at an all-absent payload, a payload with present
sub-objects whose inner keys are absent, a null-counts payload, and a payload
with `usd` absent inside a present `market_cap`. -/
theorem build_defaults_amended_witness :
    (buildProjectInfo "x" emptyDetails).name = "Unknown" ∧
    (buildProjectInfo "x" emptyDetails).symbol = "" ∧
    (buildProjectInfo "x" emptyDetails).description = "No description available" ∧
    (buildProjectInfo "x" emptyDetails).twitter_followers = 0 ∧
    (buildProjectInfo "x" emptyDetails).telegram_users = 0 ∧
    (buildProjectInfo "x" emptyDetails).homepage = "" ∧
    (buildProjectInfo "x" emptyDetails).twitter = "" ∧
    (buildProjectInfo "x" emptyDetails).telegram = "" ∧
    (buildProjectInfo "x" emptyDetails).discord = "" ∧
    (buildProjectInfo "x" emptyDetails).categories = [] ∧
    (buildProjectInfo "x" emptyDetails).contract_address = "" ∧
    (buildProjectInfo "x" emptyDetails).market_cap = 0 ∧
    (buildProjectInfo "x" partialDetails).description = "No description available" ∧
    (buildProjectInfo "x" partialDetails).twitter_followers = 0 ∧
    (buildProjectInfo "x" partialDetails).telegram_users = 0 ∧
    (buildProjectInfo "x" partialDetails).homepage = "" ∧
    (buildProjectInfo "x" partialDetails).twitter = "" ∧
    (buildProjectInfo "x" partialDetails).telegram = "" ∧
    (buildProjectInfo "x" partialDetails).discord = "" ∧
    (buildProjectInfo "x" partialDetails).market_cap = 0 ∧
    (buildProjectInfo "x" nullCountsDetails).twitter_followers = 0 ∧
    (buildProjectInfo "x" nullCountsDetails).telegram_users = 0 ∧
    (buildProjectInfo "x" noUsdDetails).market_cap = 0 := by
  have he := build_defaults_amended "x" emptyDetails
  have hp := build_defaults_amended "x" partialDetails
  have hn := build_defaults_amended "x" nullCountsDetails
  have hu := build_defaults_amended "x" noUsdDetails
  exact ⟨he.1 rfl, he.2.1 rfl, he.2.2.1 (Or.inl rfl), he.2.2.2.1 (Or.inl rfl),
    he.2.2.2.2.1 (Or.inl rfl), he.2.2.2.2.2.1 (Or.inl rfl),
    he.2.2.2.2.2.2.1 (Or.inl rfl), he.2.2.2.2.2.2.2.1 (Or.inl rfl),
    he.2.2.2.2.2.2.2.2.1 (Or.inl rfl), he.2.2.2.2.2.2.2.2.2.1 rfl,
    he.2.2.2.2.2.2.2.2.2.2.1 rfl, he.2.2.2.2.2.2.2.2.2.2.2 (Or.inl rfl),
    hp.2.2.1 (Or.inr ⟨_, rfl, rfl⟩),
    hp.2.2.2.1 (Or.inr ⟨_, rfl, Or.inl rfl⟩),
    hp.2.2.2.2.1 (Or.inr ⟨_, rfl, Or.inl rfl⟩),
    hp.2.2.2.2.2.1 (Or.inr ⟨_, rfl, rfl⟩),
    hp.2.2.2.2.2.2.1 (Or.inr ⟨_, rfl, rfl⟩),
    hp.2.2.2.2.2.2.2.1 (Or.inr ⟨_, rfl, rfl⟩),
    hp.2.2.2.2.2.2.2.2.1 (Or.inr ⟨_, rfl, rfl⟩),
    hp.2.2.2.2.2.2.2.2.2.2.2 (Or.inr ⟨_, rfl, Or.inl rfl⟩),
    hn.2.2.2.1 (Or.inr ⟨_, rfl, Or.inr rfl⟩),
    hn.2.2.2.2.1 (Or.inr ⟨_, rfl, Or.inr rfl⟩),
    hu.2.2.2.2.2.2.2.2.2.2.2 (Or.inr ⟨_, rfl, Or.inr ⟨_, rfl, rfl⟩⟩)⟩

/-- Claim C5: a candidate whose detail fetch returns absent is skipped
without being emitted and without being added to the dedup store, and the
loop continues with the next candidate; the matches accumulated so far are
kept. -/
theorem scan_absent_skip (net : Nat → String → DetailResult) (st : ScanState)
    (coin : CoinSummary) (rest : List CoinSummary)
    (hmem : coin.id ∉ st.sent_projects)
    (hf : get_coin_details (net st.idx coin.id) = none) :
    (processCoin net st coin).matching_projects = st.matching_projects ∧
    (processCoin net st coin).sent_projects = st.sent_projects ∧
    coin.id ∉ (processCoin net st coin).sent_projects ∧
    scanLoop net (coin :: rest) st = scanLoop net rest (processCoin net st coin) := by
  refine ⟨?_, ?_, ?_, scanLoop_cons net coin rest st⟩
  · rw [processCoin_absent net st coin hmem hf]
  · rw [processCoin_absent net st coin hmem hf]
  · rw [processCoin_absent net st coin hmem hf]
    simpa using hmem

/-- Witness for C5: a candidate whose detail endpoint answers 404. -/
theorem scan_absent_skip_witness :
    (processCoin (fun _ _ => DetailResult.response 404 emptyDetails)
        { matching_projects := [buildProjectInfo "b" (sampleDetails 0 0)],
          sent_projects := ["b"], trace := [], idx := 0 }
        { id := "a" }).matching_projects =
      [buildProjectInfo "b" (sampleDetails 0 0)] ∧
    (processCoin (fun _ _ => DetailResult.response 404 emptyDetails)
        { matching_projects := [buildProjectInfo "b" (sampleDetails 0 0)],
          sent_projects := ["b"], trace := [], idx := 0 }
        { id := "a" }).sent_projects = ["b"] ∧
    "a" ∉
      (processCoin (fun _ _ => DetailResult.response 404 emptyDetails)
        { matching_projects := [buildProjectInfo "b" (sampleDetails 0 0)],
          sent_projects := ["b"], trace := [], idx := 0 }
        { id := "a" }).sent_projects ∧
    scanLoop (fun _ _ => DetailResult.response 404 emptyDetails)
        [{ id := "a" }, { id := "c" }]
        { matching_projects := [buildProjectInfo "b" (sampleDetails 0 0)],
          sent_projects := ["b"], trace := [], idx := 0 } =
      scanLoop (fun _ _ => DetailResult.response 404 emptyDetails) [{ id := "c" }]
        (processCoin (fun _ _ => DetailResult.response 404 emptyDetails)
          { matching_projects := [buildProjectInfo "b" (sampleDetails 0 0)],
            sent_projects := ["b"], trace := [], idx := 0 }
          { id := "a" }) :=
  scan_absent_skip (fun _ _ => DetailResult.response 404 emptyDetails)
    { matching_projects := [buildProjectInfo "b" (sampleDetails 0 0)],
      sent_projects := ["b"], trace := [], idx := 0 }
    { id := "a" } [{ id := "c" }] (by decide) (by decide)

/-- Claim C6: on a non-success status or a transport failure the listing
operation returns an empty sequence, and a scan over that empty result
returns no matches and performs zero detail fetches. -/
theorem listing_failure_empty (status : Nat) (coins : List CoinSummary)
    (sent : List String) (net : Nat → String → DetailResult)
    (hstatus : status ≠ 200) :
    get_new_coins (ListingResult.response status coins) = [] ∧
    get_new_coins ListingResult.failure = [] ∧
    (scan_for_projects sent (ListingResult.response status coins) net).matching_projects =
      [] ∧
    List.countP Event.isDetailFetch
      (scan_for_projects sent (ListingResult.response status coins) net).trace = 0 ∧
    (scan_for_projects sent ListingResult.failure net).matching_projects = [] ∧
    List.countP Event.isDetailFetch
      (scan_for_projects sent ListingResult.failure net).trace = 0 := by
  have h0 : get_new_coins (ListingResult.response status coins) = [] := by
    simp [get_new_coins, hstatus]
  have h1 : get_new_coins ListingResult.failure = [] := rfl
  refine ⟨h0, h1, ?_, ?_, ?_, ?_⟩ <;>
    simp [scan_for_projects_def, h0, h1, scanLoop_nil]

/-- Witness for C6: a 500 response over a non-empty upstream array. -/
theorem listing_failure_empty_witness :
    get_new_coins (ListingResult.response 500 [{ id := "a" }]) = [] ∧
    get_new_coins ListingResult.failure = [] ∧
    (scan_for_projects [] (ListingResult.response 500 [{ id := "a" }])
      (fun _ _ => DetailResult.response 200 (sampleDetails 0 0))).matching_projects = [] ∧
    List.countP Event.isDetailFetch
      (scan_for_projects [] (ListingResult.response 500 [{ id := "a" }])
        (fun _ _ => DetailResult.response 200 (sampleDetails 0 0))).trace = 0 ∧
    (scan_for_projects [] ListingResult.failure
      (fun _ _ => DetailResult.response 200 (sampleDetails 0 0))).matching_projects = [] ∧
    List.countP Event.isDetailFetch
      (scan_for_projects [] ListingResult.failure
        (fun _ _ => DetailResult.response 200 (sampleDetails 0 0))).trace = 0 :=
  listing_failure_empty 500 [{ id := "a" }] []
    (fun _ _ => DetailResult.response 200 (sampleDetails 0 0)) (by decide)

/-- Claim C7: every match record emitted by a scan stores a description of at
most 500 characters, and a 600-character upstream description is truncated
to exactly 500 characters. -/
theorem scan_description_truncated :
    (∀ (sent : List String) (listing : ListingResult)
      (net : Nat → String → DetailResult) (p : ProjectInfo),
      p ∈ (scan_for_projects sent listing net).matching_projects →
      p.description.length ≤ 500) ∧
    (buildProjectInfo "x"
      { name := none, symbol := none,
        description := some { en := some (String.mk (List.replicate 600 (Char.ofNat 97))) },
        community_data := none, links := none, categories := none,
        contract_address := none, market_data := none }).description.length = 500 := by
  constructor
  · intro sent listing net p hp
    obtain ⟨_, _, _, hbuilds⟩ := scan_delta sent listing net
    obtain ⟨d, hd⟩ := hbuilds p hp
    rw [hd]
    exact build_description_le p.id d
  · show ((List.replicate 600 (Char.ofNat 97)).take 500).length = 500
    rw [List.take_replicate, List.length_replicate]
    omega

/-- Witness for C7: the single match of a concrete scan has a description of
at most 500 characters. -/
theorem scan_description_truncated_witness :
    (buildProjectInfo "a" (sampleDetails 0 0)).description.length ≤ 500 :=
  scan_description_truncated.1 [] (ListingResult.response 200 [{ id := "a" }])
    (fun _ _ => DetailResult.response 200 (sampleDetails 0 0))
    (buildProjectInfo "a" (sampleDetails 0 0)) (by decide)

/-- Claim C8: the listing operation returns a suffix of the upstream array of
length at most 100, a scan performs at most 20 detail fetches, and a listing
of 25 summaries leaves exactly 20 candidates to consider. -/
theorem scan_bounds :
    (∀ r : ListingResult, (get_new_coins r).length ≤ 100) ∧
    (∀ (status : Nat) (coins : List CoinSummary),
      (get_new_coins (ListingResult.response status coins)).IsSuffix coins) ∧
    (∀ (sent : List String) (listing : ListingResult)
      (net : Nat → String → DetailResult),
      List.countP Event.isDetailFetch (scan_for_projects sent listing net).trace ≤ 20) ∧
    ((get_new_coins (ListingResult.response 200
      ((List.range 25).map (fun n => { id := toString n })))).take 20).length = 20 := by
  refine ⟨?_, ?_, ?_, by decide⟩
  · intro r
    cases r with
    | failure => simp [get_new_coins]
    | response status coins =>
      by_cases h200 : status = 200
      · simp only [get_new_coins, if_pos h200]
        by_cases hlen : coins.length > 100
        · simp only [if_pos hlen, List.length_drop]
          omega
        · simp only [if_neg hlen]
          omega
      · simp [get_new_coins, h200]
  · intro status coins
    by_cases h200 : status = 200
    · simp only [get_new_coins, if_pos h200]
      by_cases hlen : coins.length > 100
      · simp only [if_pos hlen]
        exact List.drop_suffix _ _
      · simp only [if_neg hlen]
        exact List.suffix_refl _
    · simp only [get_new_coins, if_neg h200]
      exact List.nil_suffix
  · intro sent listing net
    rw [scan_for_projects_def]
    have h := scanLoop_fetch_bound net ((get_new_coins listing).take 20)
      { matching_projects := [], sent_projects := sent, trace := [], idx := 0 }
    have h2 : ((get_new_coins listing).take 20).length ≤ 20 := List.length_take_le _ _
    simp only [List.countP_nil] at h
    omega

/-- Claim C9: the `stats` count is `len(sent_projects)`; starting from an
empty store, after any sequence of scans whose emitted matches number two in
total, `stats` reports 2. -/
theorem stats_reports_matches
    (scans : List (ListingResult × (Nat → String → DetailResult)))
    (h2 : (runScans scans []).1.length = 2) :
    stats_projects_sent (runScans scans []).2 = 2 := by
  obtain ⟨hsent, _⟩ := runScans_delta scans []
  simp [stats_projects_sent, hsent, h2]

/-- Witness for C9: two scans that together emit two matches (the second scan
skips the first's identifier) leave a stats count of 2. -/
theorem stats_reports_matches_witness :
    stats_projects_sent
      (runScans
        [(ListingResult.response 200 [{ id := "a" }],
          fun _ _ => DetailResult.response 200 (sampleDetails 0 0)),
         (ListingResult.response 200 [{ id := "a" }, { id := "b" }],
          fun _ _ => DetailResult.response 200 (sampleDetails 0 0))] []).2 = 2 :=
  stats_reports_matches
    [(ListingResult.response 200 [{ id := "a" }],
      fun _ _ => DetailResult.response 200 (sampleDetails 0 0)),
     (ListingResult.response 200 [{ id := "a" }, { id := "b" }],
      fun _ _ => DetailResult.response 200 (sampleDetails 0 0))] (by decide)

/-- Claim C10: across the process lifetime (any sequence of scans starting
from the empty dedup store), each asset identifier appears at most once in
the concatenation of all scan results. -/
theorem scan_ids_nodup
    (scans : List (ListingResult × (Nat → String → DetailResult))) :
    ((runScans scans []).1.map (fun p => p.id)).Nodup := by
  obtain ⟨hsent, hnd⟩ := runScans_delta scans []
  have h := hnd List.nodup_nil
  rw [hsent] at h
  simpa using h

end DefiScanner
